import Mathlib

/-!
Verification of the curveadm disk-replacement subsystem.

The definitions below are a shallow embedding of the Go sources of the
repository (cli/command/replace_disk.go, internal/task/task/checker/replace_disk.go,
internal/task/task/bs/replace_disk_stop.go, internal/configure/disks/disks.go and
the unnamed revision files).  External effects (remote lsblk queries, docker
probes, the sqlite-backed record store) are made explicit: query results are
inputs, record tables are lists, and every function returns its new table or an
error value.  Machine behaviour of the Go standard library that the code relies
on (strings.Split, strconv.Atoi, strconv.ParseInt) is modelled by executable
Lean functions with the same semantics.
-/

set_option autoImplicit false

/-! ## Go string primitives -/

/-- All characters are decimal digits (used by the strconv models). -/
def allDigits (l : List Char) : Bool := l.all Char.isDigit

/-- Value of a digit string, most significant first. -/
def digitsToNat (l : List Char) : Nat :=
  l.foldl (fun a c => a * 10 + (c.toNat - '0'.toNat)) 0

/-- Core of strconv.ParseInt with base 10: optional sign followed by at least one
digit; returns the sign and the magnitude, and none on a syntax error. -/
def goParseIntCore (l : List Char) : Option (Bool × Nat) :=
  match l with
  | [] => none
  | c :: rest =>
    if c == '+' then
      if !rest.isEmpty && allDigits rest then some (false, digitsToNat rest) else none
    else if c == '-' then
      if !rest.isEmpty && allDigits rest then some (true, digitsToNat rest) else none
    else
      if allDigits (c :: rest) then some (false, digitsToNat (c :: rest)) else none

/-- strconv.ParseInt(s, 10, bitSize) in the error-propagating style: none on a
syntax error or when the value is out of the signed bitSize range. -/
def goParseInt (s : String) (bitSize : Nat) : Option Int :=
  match goParseIntCore s.data with
  | none => none
  | some (neg, m) =>
    let v : Int := if neg then -(m : Int) else (m : Int)
    if v < -(2 ^ (bitSize - 1) : Int) || v > (2 ^ (bitSize - 1) : Int) - 1 then none
    else some v

/-- The value strconv.ParseInt(s, 10, bitSize) leaves in the result when the
caller discards the error: 0 on a syntax error, the clamped bound on a range
error, the parsed value otherwise. -/
def goParseIntValue (s : String) (bitSize : Nat) : Int :=
  match goParseIntCore s.data with
  | none => 0
  | some (neg, m) =>
    let v : Int := if neg then -(m : Int) else (m : Int)
    let lo : Int := -(2 ^ (bitSize - 1))
    let hi : Int := (2 ^ (bitSize - 1)) - 1
    if v < lo then lo else if v > hi then hi else v

/-- strconv.Atoi with the error discarded (64-bit platform). -/
def goAtoi (s : String) : Int := goParseIntValue s 64

/-- strings.Split on the one-character separator "/" (accumulator of the piece
being read, reversed). -/
def splitOnSlashAux : List Char → List Char → List (List Char)
  | acc, [] => [acc.reverse]
  | acc, '/' :: rest => acc.reverse :: splitOnSlashAux [] rest
  | acc, c :: rest => splitOnSlashAux (c :: acc) rest

/-- strings.Split(s, "/"). -/
def goSplitSlash (s : String) : List String :=
  (splitOnSlashAux [] s.data).map String.mk

/-- strings.Split on the two-character separator "//": leftmost non-overlapping
matches are removed and the pieces between them returned. -/
def splitOn2SlashAux : List Char → List Char → List (List Char)
  | acc, [] => [acc.reverse]
  | acc, [c] => [(c :: acc).reverse]
  | acc, c1 :: c2 :: rest =>
    if c1 = '/' && c2 = '/' then acc.reverse :: splitOn2SlashAux [] rest
    else splitOn2SlashAux (c1 :: acc) (c2 :: rest)

/-- strings.Split(s, "//"). -/
def goSplit2Slash (s : String) : List String :=
  (splitOn2SlashAux [] s.data).map String.mk

/-- Does sub occur (contiguously) inside the second list at any position. -/
def goContainsAux (sub : List Char) : List Char → Bool
  | [] => sub.isEmpty
  | c :: rest => sub.isPrefixOf (c :: rest) || goContainsAux sub rest

/-- strings.Contains(s, sub). -/
def goContains (s sub : String) : Bool := goContainsAux sub.data s.data

/-! ## Error numbers

One constructor per errno constant reached by the embedded code; ERR_PARSE
stands for a raw strconv error returned unwrapped by the checker. -/

deriving instance DecidableEq for Except

inductive Errno where
  | ERR_LIST_BLOCK_DEVICES_FAILED
  | ERR_PARSE
  | ERR_REPLACE_DISK_SMALLER_SIZE
  | ERR_REPLACE_DISK_USED_BY_OTHER_CHUNKSERVER
  | ERR_REPLACE_THE_SAME_PHYSICAL_DISK
  | ERR_DISK_NOT_EMPTY
  | ERR_REPLACE_DISK_CLUSTER_NOT_HEALTHY
  | ERR_REPLACE_DISK_CLUSTER_HEALTH_UNKNOWN
  | ERR_INVALID_DISK_URI
  | ERR_REPLACE_DISK_TOO_MANY
  | ERR_REPLACE_DISK_NO_SUCH_REPLACEMENT
  | ERR_DISK_CHUNKSER_ID_NONEMPTY
  | ERR_DEVICE_FIELD_MISSING
  | ERR_MOUNT_POINT_FIELD_MISSING
  | ERR_DISK_FORMAT_PERCENT_EXCEED_100
  | ERR_CONFIGURE_VALUE_REQUIRES_POSITIVE_INTEGER
  | ERR_DATABASE_EMPTY_QUERY_RESULT
deriving DecidableEq, Repr

/-! ## Data model -/

/-- A row of the disk table (internal/storage, fields as consumed by the
embedded code). -/
structure Disk where
  Host : String
  Device : String
  MountPoint : String
  ContainerImage : String
  ChunkServerID : String
  Size : String
  URI : String
  ServiceMountDevice : String
  FormatPercent : Int
deriving DecidableEq, Repr

/-- A row of the disk-replacement table (a replacement ticket). -/
structure DiskReplacement where
  Host : String
  Device : String
  FormerDiskId : String
  ChunkServerID : String
  Status : String
  Progress : String
deriving DecidableEq, Repr

/-- A format-status report from the formatting subsystem (bs.FormatStatus as
consumed by updateDiskReplacementProgressStatus). -/
structure FormatStatus where
  Host : String
  Device : String
  Formatted : String
  Status : String
deriving DecidableEq, Repr

/-- Options of the replace-disk command. -/
structure ReplaceDiskOptions where
  chunkserverId : String
  device : String
  stopDiskReplacement : Bool
  diskReplacementStatus : Bool
deriving DecidableEq, Repr

/-- Modelled from the spec: replacement-ticket status constants live in
internal/common which is absent from src; the spec gives the status set
pending, running and done. The exact strings are irrelevant, only their
distinctness is used. -/
def DISK_REPLACEMENT_STATUS_PENDING : String := "Pending"

/-- Ticket status constant for a running replacement (internal/common). -/
def DISK_REPLACEMENT_STATUS_RUNNING : String := "Running"

/-- Ticket status constant for a finished replacement (internal/common). -/
def DISK_REPLACEMENT_STATUS_DONE : String := "Done"

/-- Modelled from the spec: the physical-disk URI proto constant of
internal/common (absent from src); the spec states that fs:uuid is the only
defined proto. -/
def DISK_URI_PROTO_FS_UUID : String := "fs:uuid"

/-- Modelled from the spec: the sentinel unowned chunkserver id of
internal/common (absent from src). -/
def DISK_DEFAULT_NULL_CHUNKSERVER_ID : String := "-"

/-! ## getDiskId (internal/configure/disks, revisions part_001 and part_002)

The Go function splits the disk URI on the separator made of two slashes,
returns an invalid-URI error when the slice is empty, returns element 1 when
element 0 equals the fs:uuid proto, and otherwise an empty id with no error.
The element-1 access is not guarded; the value none below marks the run-time
index-out-of-range fault. -/

def getDiskId (disk : Disk) : Option (Except Errno String) :=
  match goSplit2Slash disk.URI with
  | [] => some (Except.error Errno.ERR_INVALID_DISK_URI)
  | p :: rest =>
    if p == DISK_URI_PROTO_FS_UUID then
      match rest with
      | [] => none
      | id1 :: _ => some (Except.ok id1)
    else some (Except.ok "")

theorem splitOn2SlashAux_ne_nil (acc l : List Char) : splitOn2SlashAux acc l ≠ [] := by
  induction acc, l using splitOn2SlashAux.induct with
  | case1 acc => simp [splitOn2SlashAux]
  | case2 acc c => simp [splitOn2SlashAux]
  | case3 acc c1 c2 rest hc ih => simp only [splitOn2SlashAux, hc, if_true]; simp
  | case4 acc c1 c2 rest hc ih => simp only [splitOn2SlashAux, hc, if_false]; exact ih

theorem goSplit2Slash_ne_nil (s : String) : goSplit2Slash s ≠ [] := by
  unfold goSplit2Slash
  intro h
  exact splitOn2SlashAux_ne_nil [] s.data (List.map_eq_nil_iff.mp h)

/-- C10: getDiskId is not total on all URI strings: the empty-slice invalid-URI
branch is unreachable because the split always yields at least one piece; a URI
equal to the bare proto fs:uuid makes the element-1 access fault (the model
returns none); and every URI whose part before the separator differs from
fs:uuid yields the empty id with no error. -/
theorem getDiskId_not_total :
    (∀ s : String, goSplit2Slash s ≠ []) ∧
    (∀ disk : Disk, getDiskId disk ≠ some (Except.error Errno.ERR_INVALID_DISK_URI)) ∧
    (∀ disk : Disk, disk.URI = "fs:uuid" → getDiskId disk = none) ∧
    (∀ (disk : Disk) (p : String) (rest : List String),
      goSplit2Slash disk.URI = p :: rest → p ≠ DISK_URI_PROTO_FS_UUID →
      getDiskId disk = some (Except.ok "")) := by
  refine ⟨goSplit2Slash_ne_nil, ?_, ?_, ?_⟩
  · intro disk h
    unfold getDiskId at h
    rcases hsplit : goSplit2Slash disk.URI with _ | ⟨p, rest⟩
    · exact goSplit2Slash_ne_nil disk.URI hsplit
    · rw [hsplit] at h
      by_cases hp : p = DISK_URI_PROTO_FS_UUID
      · cases rest <;> simp [hp] at h
      · simp [hp] at h
  · intro disk huri
    unfold getDiskId
    rw [huri]
    have hsplit : goSplit2Slash "fs:uuid" = ["fs:uuid"] := by decide
    rw [hsplit]
    simp [DISK_URI_PROTO_FS_UUID]
  · intro disk p rest hsplit hp
    unfold getDiskId
    rw [hsplit]
    simp [hp]

/-- Witness for C10: a concrete disk whose URI carries a different proto gets
the empty id with no error. -/
theorem getDiskId_not_total_witness :
    getDiskId ⟨"h1", "/dev/sdb", "/m", "img", "cs1", "500", "nbd://x", "", 90⟩ =
      some (Except.ok "") :=
  getDiskId_not_total.2.2.2 ⟨"h1", "/dev/sdb", "/m", "img", "cs1", "500", "nbd://x", "", 90⟩
    "nbd:" ["x"] (by decide) (by decide)

/-! ## Validation pipeline (internal/task/task/checker/replace_disk.go and the
part_000 revision)

Each step consumes the outcome of its remote lsblk query as explicit inputs:
a success flag (the command executed and matched a device) and the raw output
string. The disk table is passed as a list. -/

/-- storage.GetDisk with the by-device filter: rows matching (host, device). -/
def GetDiskByDevice (host device : String) (records : List Disk) : List Disk :=
  records.filter (fun r => r.Host == host && r.Device == device)

/-- checkDiskSize.Execute: reject when the lsblk query failed, when either size
string does not parse as a 64-bit integer, or when the candidate size is
strictly smaller than the recorded old-disk size. -/
def checkDiskSize (success : Bool) (newDiskSizeOut : String) (oldDisk : Disk) :
    Except Errno Unit :=
  if !success then Except.error Errno.ERR_LIST_BLOCK_DEVICES_FAILED
  else
    match goParseInt newDiskSizeOut 64 with
    | none => Except.error Errno.ERR_PARSE
    | some newDiskSize =>
      match goParseInt oldDisk.Size 64 with
      | none => Except.error Errno.ERR_PARSE
      | some oldDiskSize =>
        if newDiskSize < oldDiskSize then Except.error Errno.ERR_REPLACE_DISK_SMALLER_SIZE
        else Except.ok ()

/-- checkDiskUsed.Execute (checkDiskInUse in part_000): reject when the
candidate device already has a record owned by a different chunkserver. -/
def checkDiskUsed (host newDiskDevice : String) (oldDisk : Disk) (records : List Disk) :
    Except Errno Unit :=
  match GetDiskByDevice host newDiskDevice records with
  | [] => Except.ok ()
  | newDisk :: _ =>
    if newDisk.ChunkServerID != oldDisk.ChunkServerID then
      Except.error Errno.ERR_REPLACE_DISK_USED_BY_OTHER_CHUNKSERVER
    else Except.ok ()

/-- checkDiskTheSame.Execute: reject when the candidate device's filesystem
UUID equals the old disk's stored physical-disk id; the result is none when
getDiskId faults at run time. -/
def checkDiskTheSame (success : Bool) (newDiskId : String) (oldDisk : Disk) :
    Option (Except Errno Unit) :=
  if !success then some (Except.error Errno.ERR_LIST_BLOCK_DEVICES_FAILED)
  else
    match getDiskId oldDisk with
    | none => none
    | some (Except.error e) => some (Except.error e)
    | some (Except.ok oldDiskId) =>
      if newDiskId == oldDiskId then
        some (Except.error Errno.ERR_REPLACE_THE_SAME_PHYSICAL_DISK)
      else some (Except.ok ())

/-- checkDiskEmpty.Execute: reject when the candidate device carries any
filesystem. -/
def checkDiskEmpty (success : Bool) (fsType : String) : Except Errno Unit :=
  if !success then Except.error Errno.ERR_LIST_BLOCK_DEVICES_FAILED
  else if fsType != "" then Except.error Errno.ERR_DISK_NOT_EMPTY
  else Except.ok ()

/-- Output of the copysets-status probe against one peer chunkserver on the
host: its id, the command output, and whether the in-container execution
failed. -/
structure PeerProbe where
  ChunkServerID : String
  Out : String
  ExecFailed : Bool
deriving DecidableEq, Repr

/-- The unhealthy marker scanned for in the probe output (part_000). -/
def COPYSETS_NOT_HEALTHY : String := "Copysets not healthy"

/-- The peer loop of checkCopysetsHealty.Execute, carrying
cmdExecFailureCount. -/
def checkCopysetsHealtyLoop (chunkserverId : String) :
    List PeerProbe → Nat → Except Errno Unit
  | [], n =>
    if n > 0 then Except.error Errno.ERR_REPLACE_DISK_CLUSTER_HEALTH_UNKNOWN
    else Except.ok ()
  | p :: rest, n =>
    if p.ChunkServerID == chunkserverId then checkCopysetsHealtyLoop chunkserverId rest n
    else
      let n2 := if p.ExecFailed then n + 1 else n
      if goContains p.Out COPYSETS_NOT_HEALTHY then
        Except.error Errno.ERR_REPLACE_DISK_CLUSTER_NOT_HEALTHY
      else checkCopysetsHealtyLoop chunkserverId rest n2

/-- checkCopysetsHealty.Execute (part_000): probe every other chunkserver on
the host; an unhealthy output aborts at once; execution failures are tallied
and reported as the health-unknown error after the loop. -/
def checkCopysetsHealty (chunkserverId : String) (peers : List PeerProbe) :
    Except Errno Unit :=
  checkCopysetsHealtyLoop chunkserverId peers 0

/-- All external inputs of one run of the check-disk-replacement task. -/
structure CheckInput where
  host : String
  chunkserverId : String
  oldDisk : Disk
  newDiskDevice : String
  peers : List PeerProbe
  sizeSuccess : Bool
  sizeOut : String
  records : List Disk
  uuidSuccess : Bool
  uuidOut : String
  fsSuccess : Bool
  fsOut : String
deriving Repr

/-- The ordered short-circuiting steps of NewCheckDiskReplacementTask
(part_000): cluster health, size, in-use, same-disk, emptiness. The task
engine runs steps in order and stops at the first error (spec section 4.2);
the engine itself is out of src. -/
def checkDiskReplacementPipeline (inp : CheckInput) : Option (Except Errno Unit) :=
  match checkCopysetsHealty inp.chunkserverId inp.peers with
  | Except.error e => some (Except.error e)
  | Except.ok _ =>
    match checkDiskSize inp.sizeSuccess inp.sizeOut inp.oldDisk with
    | Except.error e => some (Except.error e)
    | Except.ok _ =>
      match checkDiskUsed inp.host inp.newDiskDevice inp.oldDisk inp.records with
      | Except.error e => some (Except.error e)
      | Except.ok _ =>
        match checkDiskTheSame inp.uuidSuccess inp.uuidOut inp.oldDisk with
        | none => none
        | some (Except.error e) => some (Except.error e)
        | some (Except.ok _) => some (checkDiskEmpty inp.fsSuccess inp.fsOut)

/-- C2: when the lsblk size query succeeded and both size strings parse as
64-bit integers, checkDiskSize rejects with the smaller-size error exactly when
the candidate size is strictly below the recorded old size, and passes exactly
when it is equal or larger. -/
theorem checkDiskSize_no_shrink (success : Bool) (out : String) (oldDisk : Disk)
    (n o : Int) (hs : success = true)
    (hn : goParseInt out 64 = some n) (ho : goParseInt oldDisk.Size 64 = some o) :
    (checkDiskSize success out oldDisk = Except.error Errno.ERR_REPLACE_DISK_SMALLER_SIZE ↔ n < o) ∧
    (checkDiskSize success out oldDisk = Except.ok () ↔ o ≤ n) := by
  subst hs
  unfold checkDiskSize
  rw [hn, ho]
  by_cases h : n < o <;> simp [h] <;> omega

/-- Witness for C2 at the sizes of the spec example: candidate 999999999999 is
rejected against old size 1000000000000, candidate 1000000000000 passes. -/
theorem checkDiskSize_no_shrink_witness :
    (checkDiskSize true "999999999999"
      ⟨"h1", "/dev/sdb", "/m", "img", "cs1", "1000000000000", "fs:uuid//A", "", 90⟩ =
      Except.error Errno.ERR_REPLACE_DISK_SMALLER_SIZE) ∧
    (checkDiskSize true "1000000000000"
      ⟨"h1", "/dev/sdb", "/m", "img", "cs1", "1000000000000", "fs:uuid//A", "", 90⟩ =
      Except.ok ()) := by
  constructor
  · exact (checkDiskSize_no_shrink true "999999999999" _ 999999999999 1000000000000
      rfl (by decide) (by decide)).1.mpr (by decide)
  · exact (checkDiskSize_no_shrink true "1000000000000" _ 1000000000000 1000000000000
      rfl (by decide) (by decide)).2.mpr (by decide)

/-- C3: when the old disk's stored physical-disk id resolves and the remote
UUID query succeeded with a UUID equal to that id, checkDiskTheSame returns the
same-physical-disk error, and the whole validation pipeline cannot succeed,
whatever the other checks' inputs are. -/
theorem checkDiskTheSame_same_uuid_rejected (inp : CheckInput) (oldId : String)
    (hid : getDiskId inp.oldDisk = some (Except.ok oldId))
    (hsucc : inp.uuidSuccess = true) (heq : inp.uuidOut = oldId) :
    checkDiskTheSame inp.uuidSuccess inp.uuidOut inp.oldDisk =
      some (Except.error Errno.ERR_REPLACE_THE_SAME_PHYSICAL_DISK) ∧
    checkDiskReplacementPipeline inp ≠ some (Except.ok ()) := by
  have h1 : checkDiskTheSame inp.uuidSuccess inp.uuidOut inp.oldDisk =
      some (Except.error Errno.ERR_REPLACE_THE_SAME_PHYSICAL_DISK) := by
    simp [checkDiskTheSame, hsucc, heq, hid]
  refine ⟨h1, ?_⟩
  intro hcontra
  unfold checkDiskReplacementPipeline at hcontra
  cases hA : checkCopysetsHealty inp.chunkserverId inp.peers with
  | error e => rw [hA] at hcontra; simp at hcontra
  | ok uA =>
    rw [hA] at hcontra
    cases hB : checkDiskSize inp.sizeSuccess inp.sizeOut inp.oldDisk with
    | error e => rw [hB] at hcontra; simp at hcontra
    | ok uB =>
      rw [hB] at hcontra
      cases hC : checkDiskUsed inp.host inp.newDiskDevice inp.oldDisk inp.records with
      | error e => rw [hC] at hcontra; simp at hcontra
      | ok uC =>
        rw [hC] at hcontra
        rw [h1] at hcontra
        simp at hcontra

/-- Witness for C3: concrete old disk with URI proto fs:uuid and id A, and a
candidate whose queried UUID is also A. -/
theorem checkDiskTheSame_same_uuid_rejected_witness :
    checkDiskTheSame true "A"
      ⟨"h1", "/dev/sdb", "/m", "img", "cs1", "500", "fs:uuid//A", "", 90⟩ =
      some (Except.error Errno.ERR_REPLACE_THE_SAME_PHYSICAL_DISK) ∧
    checkDiskReplacementPipeline
      ⟨"h1", "cs1", ⟨"h1", "/dev/sdb", "/m", "img", "cs1", "500", "fs:uuid//A", "", 90⟩,
        "/dev/sdc", [], true, "500", [], true, "A", true, ""⟩ ≠
      some (Except.ok ()) :=
  checkDiskTheSame_same_uuid_rejected
    ⟨"h1", "cs1", ⟨"h1", "/dev/sdb", "/m", "img", "cs1", "500", "fs:uuid//A", "", 90⟩,
      "/dev/sdc", [], true, "500", [], true, "A", true, ""⟩
    "A" (by decide) rfl rfl

/-! ## C4: behaviour of the cluster-health step -/

theorem checkCopysetsHealtyLoop_ok_iff (cid : String) (peers : List PeerProbe) :
    ∀ n : Nat, checkCopysetsHealtyLoop cid peers n = Except.ok () ↔
      (n = 0 ∧ ∀ p ∈ peers, p.ChunkServerID ≠ cid →
        (goContains p.Out COPYSETS_NOT_HEALTHY = false ∧ p.ExecFailed = false)) := by
  induction peers with
  | nil =>
    intro n
    simp only [checkCopysetsHealtyLoop]
    constructor
    · intro h
      by_cases hn : n > 0
      · rw [if_pos hn] at h; simp at h
      · refine ⟨by omega, by simp⟩
    · intro ⟨h0, _⟩
      subst h0
      simp
  | cons p rest ih =>
    intro n
    simp only [checkCopysetsHealtyLoop]
    by_cases hpid : p.ChunkServerID = cid
    · simp [hpid, ih n]
    · have hbeq : (p.ChunkServerID == cid) = false := by simp [hpid]
      rw [hbeq]
      simp only [Bool.false_eq_true, if_false]
      cases hcont : goContains p.Out COPYSETS_NOT_HEALTHY with
      | true => simp [hcont, hpid]
      | false =>
        cases hef : p.ExecFailed with
        | true =>
          simp only [hef, hcont, if_true, Bool.false_eq_true, if_false]
          rw [ih (n + 1)]
          simp [hpid, hef]
        | false =>
          simp only [hef, Bool.false_eq_true, if_false]
          rw [ih n]
          simp [hpid, hcont, hef]

theorem checkCopysetsHealtyLoop_notHealthy_iff (cid : String) (peers : List PeerProbe) :
    ∀ n : Nat, checkCopysetsHealtyLoop cid peers n =
        Except.error Errno.ERR_REPLACE_DISK_CLUSTER_NOT_HEALTHY ↔
      ∃ p ∈ peers, p.ChunkServerID ≠ cid ∧ goContains p.Out COPYSETS_NOT_HEALTHY = true := by
  induction peers with
  | nil =>
    intro n
    simp only [checkCopysetsHealtyLoop]
    constructor
    · intro h
      by_cases hn : n > 0
      · rw [if_pos hn] at h; simp at h
      · rw [if_neg hn] at h; simp at h
    · simp
  | cons p rest ih =>
    intro n
    simp only [checkCopysetsHealtyLoop]
    by_cases hpid : p.ChunkServerID = cid
    · simp [hpid, ih n]
    · have hbeq : (p.ChunkServerID == cid) = false := by simp [hpid]
      rw [hbeq]
      simp only [Bool.false_eq_true, if_false]
      cases hcont : goContains p.Out COPYSETS_NOT_HEALTHY with
      | true => simp [hcont, hpid]
      | false =>
        cases hef : p.ExecFailed with
        | true =>
          simp only [hef, hcont, if_true, Bool.false_eq_true, if_false]
          rw [ih (n + 1)]
          simp [hpid, hcont]
        | false =>
          simp only [hef, Bool.false_eq_true, if_false]
          rw [ih n]
          simp [hpid, hcont]

theorem checkCopysetsHealtyLoop_unknown_iff (cid : String) (peers : List PeerProbe) :
    ∀ n : Nat, checkCopysetsHealtyLoop cid peers n =
        Except.error Errno.ERR_REPLACE_DISK_CLUSTER_HEALTH_UNKNOWN ↔
      ((∀ p ∈ peers, p.ChunkServerID ≠ cid → goContains p.Out COPYSETS_NOT_HEALTHY = false) ∧
        (n > 0 ∨ ∃ p ∈ peers, p.ChunkServerID ≠ cid ∧ p.ExecFailed = true)) := by
  induction peers with
  | nil =>
    intro n
    simp only [checkCopysetsHealtyLoop]
    constructor
    · intro h
      by_cases hn : n > 0
      · exact ⟨by simp, Or.inl hn⟩
      · rw [if_neg hn] at h; simp at h
    · intro ⟨_, h⟩
      rcases h with hn | h
      · rw [if_pos hn]
      · simp at h
  | cons p rest ih =>
    intro n
    simp only [checkCopysetsHealtyLoop]
    by_cases hpid : p.ChunkServerID = cid
    · simp [hpid, ih n]
    · have hbeq : (p.ChunkServerID == cid) = false := by simp [hpid]
      rw [hbeq]
      simp only [Bool.false_eq_true, if_false]
      cases hcont : goContains p.Out COPYSETS_NOT_HEALTHY with
      | true => simp [hcont, hpid]
      | false =>
        cases hef : p.ExecFailed with
        | true =>
          simp only [hef, hcont, if_true, Bool.false_eq_true, if_false]
          rw [ih (n + 1)]
          constructor
          · intro ⟨hall, _⟩
            exact ⟨by simp only [List.forall_mem_cons]; exact ⟨fun _ => hcont, hall⟩, Or.inr ⟨p, by simp [hpid, hef]⟩⟩
          · intro ⟨hall, _⟩
            refine ⟨?_, Or.inl (by omega)⟩
            intro q hq hqid
            exact hall q (List.mem_cons_of_mem p hq) hqid
        | false =>
          simp only [hef, Bool.false_eq_true, if_false]
          rw [ih n]
          constructor
          · intro ⟨hall, hor⟩
            refine ⟨by simp only [List.forall_mem_cons]; exact ⟨fun _ => hcont, hall⟩, ?_⟩
            rcases hor with hn | ⟨q, hq, hqid, hqf⟩
            · exact Or.inl hn
            · exact Or.inr ⟨q, List.mem_cons_of_mem p hq, hqid, hqf⟩
          · intro ⟨hall, hor⟩
            refine ⟨?_, ?_⟩
            · intro q hq hqid
              exact hall q (List.mem_cons_of_mem p hq) hqid
            · rcases hor with hn | ⟨q, hq, hqid, hqf⟩
              · exact Or.inl hn
              · rcases List.mem_cons.mp hq with rfl | hq2
                · rw [hef] at hqf; simp at hqf
                · exact Or.inr ⟨q, hq2, hqid, hqf⟩

/-- C4 counterexample: a single peer whose probe fails to execute while no
unhealthy signal is observed makes the health-check step return the
cluster-health-unknown error instead of completing successfully. -/
theorem checkCopysetsHealty_unreachable_peer_fails :
    checkCopysetsHealty "cs1" [⟨"cs2", "", true⟩] =
      Except.error Errno.ERR_REPLACE_DISK_CLUSTER_HEALTH_UNKNOWN ∧
    checkCopysetsHealty "cs1" [⟨"cs2", "", true⟩] ≠ Except.ok () := by
  constructor <;> decide

/-- C4 amended: the step succeeds exactly when every peer probe (of another
chunkserver) executed and reported no unhealthy signal; an unhealthy signal
anywhere aborts with the not-healthy error even if other probes failed first;
and with no unhealthy signal any execution failure yields the
cluster-health-unknown error rather than success. -/
theorem checkCopysetsHealty_characterization (cid : String) (peers : List PeerProbe) :
    (checkCopysetsHealty cid peers = Except.ok () ↔
      ∀ p ∈ peers, p.ChunkServerID ≠ cid →
        (goContains p.Out COPYSETS_NOT_HEALTHY = false ∧ p.ExecFailed = false)) ∧
    (checkCopysetsHealty cid peers = Except.error Errno.ERR_REPLACE_DISK_CLUSTER_NOT_HEALTHY ↔
      ∃ p ∈ peers, p.ChunkServerID ≠ cid ∧ goContains p.Out COPYSETS_NOT_HEALTHY = true) ∧
    (checkCopysetsHealty cid peers = Except.error Errno.ERR_REPLACE_DISK_CLUSTER_HEALTH_UNKNOWN ↔
      ((∀ p ∈ peers, p.ChunkServerID ≠ cid → goContains p.Out COPYSETS_NOT_HEALTHY = false) ∧
        ∃ p ∈ peers, p.ChunkServerID ≠ cid ∧ p.ExecFailed = true)) := by
  refine ⟨?_, ?_, ?_⟩
  · rw [checkCopysetsHealty, checkCopysetsHealtyLoop_ok_iff]
    simp
  · rw [checkCopysetsHealty, checkCopysetsHealtyLoop_notHealthy_iff]
  · rw [checkCopysetsHealty, checkCopysetsHealtyLoop_unknown_iff]
    simp

/-- Witness for C4's amended statement: a healthy peer followed by an
unreachable one yields the unknown error; with both healthy and reachable the
step succeeds. -/
theorem checkCopysetsHealty_characterization_witness :
    checkCopysetsHealty "cs1" [⟨"cs2", "ok", false⟩, ⟨"cs3", "", true⟩] =
      Except.error Errno.ERR_REPLACE_DISK_CLUSTER_HEALTH_UNKNOWN ∧
    checkCopysetsHealty "cs1" [⟨"cs2", "ok", false⟩] = Except.ok () := by
  constructor
  · exact (checkCopysetsHealty_characterization "cs1"
      [⟨"cs2", "ok", false⟩, ⟨"cs3", "", true⟩]).2.2.mpr
      ⟨by decide, ⟨"cs3", "", true⟩, by decide⟩
  · exact (checkCopysetsHealty_characterization "cs1"
      [⟨"cs2", "ok", false⟩]).1.mpr (by decide)

/-! ## Progress update (cli/command/replace_disk.go and the part_005 revision)

The formatting subsystem reports a current/target string per (host, device);
the procedures below recompute the percent and write it into the replacement
table.  The float expression

  fmt.Sprintf with verb percent-dot-2-f of float64(current)/float64(target)*100

is an external real-number rendering; it enters the model as the function
parameter sprintf2f.  Every possible output of that Go verb is either NaN,
+Inf, -Inf or a fixed-point numeral with exactly two decimals, hence always
satisfies the predicate isGo2fFormat below, which is the only property of it
the theorems use. -/

/-- Shape of every output of the Go formatting verb used for the percent: the
special float names or a string containing a decimal point. -/
def isGo2fFormat (s : String) : Bool :=
  s == "NaN" || s == "+Inf" || s == "-Inf" || decide ('.' ∈ s.data)

/-- storage.GetDiskReplacement with the by-device filter. -/
def GetDiskReplacementByDevice (host device : String) (tickets : List DiskReplacement) :
    List DiskReplacement :=
  tickets.filter (fun t => t.Host == host && t.Device == device)

/-- Row update of the status column for the ticket of one chunkserver. -/
def setStatusF (status chunkserverId : String) (t : DiskReplacement) : DiskReplacement :=
  if t.ChunkServerID == chunkserverId then { t with Status := status } else t

/-- storage.UpdateDiskReplacementStatus: set the status of the ticket keyed by
chunkserver id. -/
def UpdateDiskReplacementStatus (status chunkserverId : String)
    (tickets : List DiskReplacement) : List DiskReplacement :=
  tickets.map (setStatusF status chunkserverId)

/-- Row update of the progress column for the ticket of one chunkserver. -/
def setProgressF (progress chunkserverId : String) (t : DiskReplacement) : DiskReplacement :=
  if t.ChunkServerID == chunkserverId then { t with Progress := progress } else t

/-- storage.UpdateDiskReplacementProgress: set the progress of the ticket keyed
by chunkserver id. -/
def UpdateDiskReplacementProgress (progress chunkserverId : String)
    (tickets : List DiskReplacement) : List DiskReplacement :=
  tickets.map (setProgressF progress chunkserverId)

/-- One iteration of the status loop of updateDiskReplacementProgressStatus in
cli/command/replace_disk.go: a malformed current/target string skips the
ticket; a done ticket is skipped before any write; otherwise the status is set
to done when the rendered percent string is 100 and the progress is written. -/
def updateOneFormatStatus (sprintf2f : Int → Int → String) (st : FormatStatus)
    (tickets : List DiskReplacement) : List DiskReplacement :=
  match goSplitSlash st.Formatted with
  | [a, b] =>
    let currentFormat := goAtoi a
    let targetFormt := goAtoi b
    let percent0 := goParseIntValue (sprintf2f currentFormat targetFormt) 64
    let percent :=
      if percent0 ≥ 100 || st.Status == DISK_REPLACEMENT_STATUS_DONE then 100 else percent0
    let formatPercent := toString percent
    match GetDiskReplacementByDevice st.Host st.Device tickets with
    | [] => tickets
    | dr :: _ =>
      if dr.Status == DISK_REPLACEMENT_STATUS_DONE then tickets
      else
        let tickets1 :=
          if formatPercent == "100" then
            UpdateDiskReplacementStatus DISK_REPLACEMENT_STATUS_DONE dr.ChunkServerID tickets
          else tickets
        UpdateDiskReplacementProgress formatPercent dr.ChunkServerID tickets1
  | _ => tickets

/-- updateDiskReplacementProgressStatus of cli/command/replace_disk.go over the
format-status reports. -/
def updateDiskReplacementProgressStatus (sprintf2f : Int → Int → String)
    (fss : List FormatStatus) (tickets : List DiskReplacement) : List DiskReplacement :=
  fss.foldl (fun ts st => updateOneFormatStatus sprintf2f st ts) tickets

/-- One iteration of the status loop of updateDiskReplacementProgressStatus in
the part_005 revision: the progress is written before the done check, a
malformed string yields percent 0, and a percent below 100 resets the status to
running; ParseInt is called with bit size 10 there. -/
def updateOneFormatStatusP5 (sprintf2f : Int → Int → String) (st : FormatStatus)
    (tickets : List DiskReplacement) : List DiskReplacement :=
  let percent0 : Int :=
    match goSplitSlash st.Formatted with
    | [a, b] => goParseIntValue (sprintf2f (goAtoi a) (goAtoi b)) 10
    | _ => 0
  let percent :=
    if percent0 ≥ 100 || st.Status == DISK_REPLACEMENT_STATUS_DONE then 100 else percent0
  match GetDiskReplacementByDevice st.Host st.Device tickets with
  | [] => tickets
  | drp :: _ =>
    let tickets1 := UpdateDiskReplacementProgress (toString percent) drp.ChunkServerID tickets
    if percent == 100 then
      if drp.Status == DISK_REPLACEMENT_STATUS_DONE then tickets1
      else UpdateDiskReplacementStatus DISK_REPLACEMENT_STATUS_DONE drp.ChunkServerID tickets1
    else UpdateDiskReplacementStatus DISK_REPLACEMENT_STATUS_RUNNING drp.ChunkServerID tickets1

/-- updateDiskReplacementProgressStatus of the part_005 revision over the
format-status reports. -/
def updateDiskReplacementProgressStatusP5 (sprintf2f : Int → Int → String)
    (fss : List FormatStatus) (tickets : List DiskReplacement) : List DiskReplacement :=
  fss.foldl (fun ts st => updateOneFormatStatusP5 sprintf2f st ts) tickets

/-- The chunkserver id is a key of the replacement table. -/
def keyUnique (tickets : List DiskReplacement) : Prop :=
  ∀ u ∈ tickets, ∀ v ∈ tickets, u.ChunkServerID = v.ChunkServerID → u = v

theorem allDigits_false_of_dot (l : List Char) (h : '.' ∈ l) : allDigits l = false := by
  unfold allDigits
  rw [List.all_eq_false]
  exact ⟨'.', h, by decide⟩

theorem goParseIntCore_none_of_dot (l : List Char) (h : '.' ∈ l) :
    goParseIntCore l = none := by
  cases l with
  | nil => simp at h
  | cons c rest =>
    have hall : allDigits (c :: rest) = false := allDigits_false_of_dot _ h
    unfold goParseIntCore
    by_cases hc : c = '+'
    · subst hc
      have hrest : '.' ∈ rest := by
        rcases List.mem_cons.mp h with h1 | h1
        · exact absurd h1 (by decide)
        · exact h1
      simp [allDigits_false_of_dot rest hrest]
    · by_cases hc2 : c = '-'
      · subst hc2
        have hrest : '.' ∈ rest := by
          rcases List.mem_cons.mp h with h1 | h1
          · exact absurd h1 (by decide)
          · exact h1
        simp [allDigits_false_of_dot rest hrest]
      · simp [hc, hc2, hall]

theorem goParseIntValue_eq_zero (s : String) (b : Nat) (h : isGo2fFormat s = true) :
    goParseIntValue s b = 0 := by
  unfold isGo2fFormat at h
  simp only [Bool.or_eq_true, beq_iff_eq, decide_eq_true_eq] at h
  rcases h with ((rfl | rfl) | rfl) | hdot
  · simp [goParseIntValue, show goParseIntCore ("NaN".data) = none from by decide]
  · simp [goParseIntValue, show goParseIntCore ("+Inf".data) = none from by decide]
  · simp [goParseIntValue, show goParseIntCore ("-Inf".data) = none from by decide]
  · simp [goParseIntValue, goParseIntCore_none_of_dot s.data hdot]

/-- C5 (code bug): with the format report 50/100 and a running ticket, the
recorded progress is the string 0, not 50: the percent is obtained by parsing
the two-decimal rendering of the float (a string such as 50.00) with
strconv.ParseInt, which always fails on the decimal point, and the discarded
error leaves percent 0.  The first conjunct isolates the failing parse. -/
theorem updateDiskReplacementProgressStatus_records_zero
    (f : Int → Int → String) (hf : ∀ c t : Int, isGo2fFormat (f c t) = true) :
    goParseIntValue (f 50 100) 64 = 0 ∧
    updateDiskReplacementProgressStatus f
      [⟨"h1", "/dev/sdc", "50/100", DISK_REPLACEMENT_STATUS_RUNNING⟩]
      [⟨"h1", "/dev/sdc", "A", "cs1", DISK_REPLACEMENT_STATUS_RUNNING, "25"⟩] =
      [⟨"h1", "/dev/sdc", "A", "cs1", DISK_REPLACEMENT_STATUS_RUNNING, "0"⟩] := by
  have h0 : goParseIntValue (f 50 100) 64 = 0 := goParseIntValue_eq_zero _ _ (hf 50 100)
  refine ⟨h0, ?_⟩
  have ha : goAtoi "50" = (50 : Int) := by decide
  have hb : goAtoi "100" = (100 : Int) := by decide
  have hsplit : goSplitSlash "50/100" = ["50", "100"] := by decide
  unfold updateDiskReplacementProgressStatus updateOneFormatStatus
  simp only [List.foldl_cons, List.foldl_nil, hsplit, ha, hb, h0]
  decide

/-- Witness for C5: the constant rendering 50.00 (the true value of the Go verb
at current 50, target 100, where the float arithmetic is exact). -/
theorem updateDiskReplacementProgressStatus_records_zero_witness :
    goParseIntValue ((fun _ _ : Int => "50.00") 50 100) 64 = 0 ∧
    updateDiskReplacementProgressStatus (fun _ _ : Int => "50.00")
      [⟨"h1", "/dev/sdc", "50/100", DISK_REPLACEMENT_STATUS_RUNNING⟩]
      [⟨"h1", "/dev/sdc", "A", "cs1", DISK_REPLACEMENT_STATUS_RUNNING, "25"⟩] =
      [⟨"h1", "/dev/sdc", "A", "cs1", DISK_REPLACEMENT_STATUS_RUNNING, "0"⟩] :=
  updateDiskReplacementProgressStatus_records_zero (fun _ _ => "50.00")
    (fun _ _ => show isGo2fFormat "50.00" = true from by decide)

/-- C6 counterexample: under the part_005 revision of the progress-update
procedure, a ticket already in status done with progress 100 is mutated by a
further run whose format report no longer shows completion: its progress is
overwritten with 0 and its status is reset to running, because that revision
writes the progress before the done check and unconditionally resets the
status when the computed percent is below 100. -/
theorem updateDiskReplacementProgressStatusP5_mutates_done_ticket :
    updateDiskReplacementProgressStatusP5 (fun _ _ => "50.00")
      [⟨"h1", "/dev/sdc", "50/100", DISK_REPLACEMENT_STATUS_RUNNING⟩]
      [⟨"h1", "/dev/sdc", "A", "cs1", DISK_REPLACEMENT_STATUS_DONE, "100"⟩] =
      [⟨"h1", "/dev/sdc", "A", "cs1", DISK_REPLACEMENT_STATUS_RUNNING, "0"⟩] ∧
    updateDiskReplacementProgressStatusP5 (fun _ _ => "50.00")
      [⟨"h1", "/dev/sdc", "50/100", DISK_REPLACEMENT_STATUS_RUNNING⟩]
      [⟨"h1", "/dev/sdc", "A", "cs1", DISK_REPLACEMENT_STATUS_DONE, "100"⟩] ≠
      [⟨"h1", "/dev/sdc", "A", "cs1", DISK_REPLACEMENT_STATUS_DONE, "100"⟩] := by
  constructor <;> decide

theorem setStatusF_ChunkServerID (s i : String) (t : DiskReplacement) :
    (setStatusF s i t).ChunkServerID = t.ChunkServerID := by
  unfold setStatusF
  split <;> rfl

theorem setProgressF_ChunkServerID (s i : String) (t : DiskReplacement) :
    (setProgressF s i t).ChunkServerID = t.ChunkServerID := by
  unfold setProgressF
  split <;> rfl

theorem setStatusF_fix (s i : String) (t : DiskReplacement) (h : t.ChunkServerID ≠ i) :
    setStatusF s i t = t := by
  unfold setStatusF
  rw [if_neg (by simpa using h)]

theorem setProgressF_fix (s i : String) (t : DiskReplacement) (h : t.ChunkServerID ≠ i) :
    setProgressF s i t = t := by
  unfold setProgressF
  rw [if_neg (by simpa using h)]

theorem keyUnique_map (g : DiskReplacement → DiskReplacement)
    (hid : ∀ x, (g x).ChunkServerID = x.ChunkServerID)
    (ts : List DiskReplacement) (hu : keyUnique ts) : keyUnique (ts.map g) := by
  intro u hu' v hv' he
  rcases List.mem_map.mp hu' with ⟨a, ha, rfl⟩
  rcases List.mem_map.mp hv' with ⟨c, hc, rfl⟩
  rw [hid a, hid c] at he
  rw [hu a ha c hc he]

theorem mem_map_self (g : DiskReplacement → DiskReplacement)
    (t : DiskReplacement) (ts : List DiskReplacement)
    (ht : t ∈ ts) (hg : g t = t) : t ∈ ts.map g :=
  hg ▸ List.mem_map_of_mem g ht

/-- One cli-revision update step keeps a done ticket untouched and preserves
key uniqueness, provided the chunkserver id is a key. -/
theorem updateOneFormatStatus_done_invariant (f : Int → Int → String)
    (st : FormatStatus) (ts : List DiskReplacement) (t : DiskReplacement)
    (hu : keyUnique ts) (ht : t ∈ ts) (hd : t.Status = DISK_REPLACEMENT_STATUS_DONE) :
    keyUnique (updateOneFormatStatus f st ts) ∧ t ∈ updateOneFormatStatus f st ts := by
  unfold updateOneFormatStatus
  rcases hsplit : goSplitSlash st.Formatted with _ | ⟨a, rest1⟩
  · exact ⟨hu, ht⟩
  rcases rest1 with _ | ⟨b, rest2⟩
  · exact ⟨hu, ht⟩
  rcases rest2 with _ | ⟨c, rest3⟩
  swap
  · exact ⟨hu, ht⟩
  simp only
  rcases hget : GetDiskReplacementByDevice st.Host st.Device ts with _ | ⟨dr, tl⟩
  · exact ⟨hu, ht⟩
  by_cases hdr : dr.Status = DISK_REPLACEMENT_STATUS_DONE
  · simp [hdr]
    exact ⟨hu, ht⟩
  · have hbne : (dr.Status == DISK_REPLACEMENT_STATUS_DONE) = false := by simpa using hdr
    simp only [hbne, Bool.false_eq_true, if_false]
    have hdrmem : dr ∈ ts := by
      have : dr ∈ GetDiskReplacementByDevice st.Host st.Device ts := by
        rw [hget]; exact List.mem_cons_self dr tl
      exact List.mem_of_mem_filter this
    have hne : t.ChunkServerID ≠ dr.ChunkServerID := by
      intro he
      have := hu t ht dr hdrmem he
      rw [← this] at hdr
      exact hdr hd
    set fp := toString (if goParseIntValue (f (goAtoi a) (goAtoi b)) 64 ≥ 100 ||
      st.Status == DISK_REPLACEMENT_STATUS_DONE then 100 else
      goParseIntValue (f (goAtoi a) (goAtoi b)) 64) with hfp
    by_cases h100 : fp == "100"
    · rw [if_pos h100]
      refine ⟨?_, ?_⟩
      · apply keyUnique_map
        · intro x
          exact setProgressF_ChunkServerID _ _ x
        · exact keyUnique_map _ (fun x => setStatusF_ChunkServerID _ _ x) ts hu
      · apply mem_map_self
        · apply mem_map_self
          · exact ht
          · exact setStatusF_fix _ _ t hne
        · exact setProgressF_fix _ _ t hne
    · rw [if_neg h100]
      refine ⟨?_, ?_⟩
      · exact keyUnique_map _ (fun x => setProgressF_ChunkServerID _ _ x) ts hu
      · exact mem_map_self _ t ts ht (setProgressF_fix _ _ t hne)

/-- C6 amended: under the cli-revision progress-update procedure, a ticket in
status done is left untouched by any run: it is still present verbatim (status
done, progress unchanged) and it is the only ticket of its chunkserver id,
provided the chunkserver id is a key of the table. -/
theorem updateDiskReplacementProgressStatus_done_unchanged
    (f : Int → Int → String) (fss : List FormatStatus) (tickets : List DiskReplacement)
    (t : DiskReplacement) (hu : keyUnique tickets) (ht : t ∈ tickets)
    (hd : t.Status = DISK_REPLACEMENT_STATUS_DONE) :
    t ∈ updateDiskReplacementProgressStatus f fss tickets ∧
    ∀ u ∈ updateDiskReplacementProgressStatus f fss tickets,
      u.ChunkServerID = t.ChunkServerID → u = t := by
  have main : ∀ (gss : List FormatStatus) (ts : List DiskReplacement), keyUnique ts → t ∈ ts →
      keyUnique (updateDiskReplacementProgressStatus f gss ts) ∧
        t ∈ updateDiskReplacementProgressStatus f gss ts := by
    intro gss
    induction gss with
    | nil =>
      intro ts hu2 ht2
      exact ⟨hu2, ht2⟩
    | cons st rest ih =>
      intro ts hu2 ht2
      have step := updateOneFormatStatus_done_invariant f st ts t hu2 ht2 hd
      have hfold : updateDiskReplacementProgressStatus f (st :: rest) ts =
          updateDiskReplacementProgressStatus f rest (updateOneFormatStatus f st ts) := rfl
      rw [hfold]
      exact ih _ step.1 step.2
  rcases main fss tickets hu ht with ⟨hu3, ht3⟩
  refine ⟨ht3, ?_⟩
  intro u hu4 he
  exact hu3 u hu4 t ht3 he

/-- Witness for C6's amended statement: a concrete done ticket survives a run
of the cli-revision procedure verbatim. -/
theorem updateDiskReplacementProgressStatus_done_unchanged_witness :
    (⟨"h1", "/dev/sdc", "A", "cs1", DISK_REPLACEMENT_STATUS_DONE, "100"⟩ : DiskReplacement) ∈
      updateDiskReplacementProgressStatus (fun _ _ => "50.00")
        [⟨"h1", "/dev/sdc", "50/100", DISK_REPLACEMENT_STATUS_RUNNING⟩]
        [⟨"h1", "/dev/sdc", "A", "cs1", DISK_REPLACEMENT_STATUS_DONE, "100"⟩] :=
  (updateDiskReplacementProgressStatus_done_unchanged (fun _ _ => "50.00")
    [⟨"h1", "/dev/sdc", "50/100", DISK_REPLACEMENT_STATUS_RUNNING⟩]
    [⟨"h1", "/dev/sdc", "A", "cs1", DISK_REPLACEMENT_STATUS_DONE, "100"⟩]
    ⟨"h1", "/dev/sdc", "A", "cs1", DISK_REPLACEMENT_STATUS_DONE, "100"⟩
    (by unfold keyUnique; decide) (by decide) (by decide)).1

/-! ## Replacement exclusivity guard (part_005 checkRunningDiskReplacement,
also inline in runReplaceDisk of cli/command/replace_disk.go)

The guard queries the replacement table for tickets whose status is running
and walks them: a ticket of a different chunkserver aborts with the
too-many-replacements error, a ticket of the requested chunkserver records
that this chunkserver already replaced a disk.  Status queries skip the walk.
Ticket creation (storage.SetDiskReplacement, absent from src) is modelled from
the spec: a fresh ticket enters the table with status pending. -/

/-- storage.GetDiskReplacement with the by-status filter. -/
def GetDiskReplacementByStatus (status : String) (tickets : List DiskReplacement) :
    List DiskReplacement :=
  tickets.filter (fun t => t.Status == status)

/-- The walk over the running tickets, carrying chunkserverReplacedDisk. -/
def checkRunningLoop (chunkserverId : String) :
    List DiskReplacement → Bool → Except Errno Bool
  | [], flag => Except.ok flag
  | drp :: rest, flag =>
    if drp.ChunkServerID != chunkserverId then Except.error Errno.ERR_REPLACE_DISK_TOO_MANY
    else checkRunningLoop chunkserverId rest true

/-- checkRunningDiskReplacement (part_005): reject a non-status request while a
running ticket of a different chunkserver exists. -/
def checkRunningDiskReplacement (tickets : List DiskReplacement)
    (options : ReplaceDiskOptions) : Except Errno Bool :=
  let running := GetDiskReplacementByStatus DISK_REPLACEMENT_STATUS_RUNNING tickets
  if options.diskReplacementStatus then Except.ok false
  else checkRunningLoop options.chunkserverId running false

/-- Modelled from the spec: storage.SetDiskReplacement inserts a fresh ticket;
per the spec lifecycle (absent to pending) it enters with status pending and
progress 0. -/
def SetDiskReplacement (host device formerDiskId chunkserverId : String)
    (tickets : List DiskReplacement) : List DiskReplacement :=
  tickets ++ [⟨host, device, formerDiskId, chunkserverId, DISK_REPLACEMENT_STATUS_PENDING, "0"⟩]

/-- A ticket counts as in flight when its status is pending or running. -/
def inFlight (t : DiskReplacement) : Bool :=
  t.Status == DISK_REPLACEMENT_STATUS_PENDING || t.Status == DISK_REPLACEMENT_STATUS_RUNNING

/-- C1 counterexample: with a pending ticket of chunkserver cs2 in the table, a
replace request for cs1 passes the guard (no too-many-replacements error), and
creating the cs1 ticket then leaves two in-flight tickets, violating the
claimed global exclusivity over pending and running tickets. -/
theorem checkRunningDiskReplacement_pending_not_rejected :
    checkRunningDiskReplacement
      [⟨"h1", "/dev/sdb", "A", "cs2", DISK_REPLACEMENT_STATUS_PENDING, "0"⟩]
      ⟨"cs1", "/dev/sdc", false, false⟩ = Except.ok false ∧
    ((SetDiskReplacement "h1" "/dev/sdc" "B" "cs1"
      [⟨"h1", "/dev/sdb", "A", "cs2", DISK_REPLACEMENT_STATUS_PENDING, "0"⟩]).filter
        inFlight).length = 2 := by
  constructor <;> decide

theorem checkRunningLoop_too_many_iff (cid : String) (l : List DiskReplacement) :
    ∀ flag : Bool, checkRunningLoop cid l flag = Except.error Errno.ERR_REPLACE_DISK_TOO_MANY ↔
      ∃ t ∈ l, t.ChunkServerID ≠ cid := by
  induction l with
  | nil =>
    intro flag
    simp [checkRunningLoop]
  | cons drp rest ih =>
    intro flag
    unfold checkRunningLoop
    by_cases hne : drp.ChunkServerID = cid
    · have : (drp.ChunkServerID != cid) = false := by simp [hne]
      rw [this]
      simp only [Bool.false_eq_true, if_false]
      rw [ih true]
      constructor
      · intro ⟨t, htm, htne⟩
        exact ⟨t, List.mem_cons_of_mem drp htm, htne⟩
      · intro ⟨t, htm, htne⟩
        rcases List.mem_cons.mp htm with rfl | htm2
        · exact absurd hne htne
        · exact ⟨t, htm2, htne⟩
    · have : (drp.ChunkServerID != cid) = true := by simp [hne]
      rw [this]
      simp only [if_true]
      constructor
      · intro _
        exact ⟨drp, List.mem_cons_self drp rest, hne⟩
      · intro _
        trivial

theorem checkRunningLoop_ok_of_all_same (cid : String) (l : List DiskReplacement)
    (hall : ∀ t ∈ l, t.ChunkServerID = cid) : ∀ flag : Bool, ∃ b : Bool,
      checkRunningLoop cid l flag = Except.ok b := by
  induction l with
  | nil =>
    intro flag
    exact ⟨flag, rfl⟩
  | cons drp rest ih =>
    intro flag
    unfold checkRunningLoop
    have h1 : drp.ChunkServerID = cid := hall drp (List.mem_cons_self drp rest)
    have : (drp.ChunkServerID != cid) = false := by simp [h1]
    rw [this]
    simp only [Bool.false_eq_true, if_false]
    exact ih (fun t htm => hall t (List.mem_cons_of_mem drp htm)) true

/-- C1 amended: the guard rejects with the too-many-replacements error exactly
when the request is not a status query and a ticket with status running exists
for a different chunkserver; pending tickets never trigger the rejection, and
when every running ticket belongs to the requested chunkserver the request
proceeds (the guard returns ok). -/
theorem checkRunningDiskReplacement_too_many_iff (tickets : List DiskReplacement)
    (options : ReplaceDiskOptions) :
    (checkRunningDiskReplacement tickets options = Except.error Errno.ERR_REPLACE_DISK_TOO_MANY ↔
      (options.diskReplacementStatus = false ∧ ∃ t ∈ tickets,
        t.Status = DISK_REPLACEMENT_STATUS_RUNNING ∧ t.ChunkServerID ≠ options.chunkserverId)) ∧
    ((∀ t ∈ tickets, t.Status = DISK_REPLACEMENT_STATUS_RUNNING →
        t.ChunkServerID = options.chunkserverId) →
      ∃ b : Bool, checkRunningDiskReplacement tickets options = Except.ok b) := by
  constructor
  · unfold checkRunningDiskReplacement
    by_cases hst : options.diskReplacementStatus
    · simp [hst]
    · simp only [hst, Bool.false_eq_true, if_false]
      rw [checkRunningLoop_too_many_iff]
      unfold GetDiskReplacementByStatus
      constructor
      · intro ⟨t, htm, htne⟩
        rcases List.mem_filter.mp htm with ⟨htm2, hts⟩
        exact ⟨by simp [hst], t, htm2, by simpa using hts, htne⟩
      · intro ⟨_, t, htm, hts, htne⟩
        exact ⟨t, List.mem_filter.mpr ⟨htm, by simp [hts]⟩, htne⟩
  · intro hall
    unfold checkRunningDiskReplacement
    by_cases hst : options.diskReplacementStatus
    · exact ⟨false, by simp [hst]⟩
    · simp only [hst, Bool.false_eq_true, if_false]
      apply checkRunningLoop_ok_of_all_same
      intro t htm
      rcases List.mem_filter.mp htm with ⟨htm2, hts⟩
      exact hall t htm2 (by simpa using hts)

/-- Witness for C1's amended statement: a running cs2 ticket makes a cs1
request fail with the too-many error, and a running cs1 ticket lets the cs1
request proceed. -/
theorem checkRunningDiskReplacement_too_many_iff_witness :
    checkRunningDiskReplacement
      [⟨"h1", "/dev/sdb", "A", "cs2", DISK_REPLACEMENT_STATUS_RUNNING, "10"⟩]
      ⟨"cs1", "/dev/sdc", false, false⟩ = Except.error Errno.ERR_REPLACE_DISK_TOO_MANY ∧
    ∃ b : Bool, checkRunningDiskReplacement
      [⟨"h1", "/dev/sdb", "A", "cs1", DISK_REPLACEMENT_STATUS_RUNNING, "10"⟩]
      ⟨"cs1", "/dev/sdc", false, false⟩ = Except.ok b := by
  constructor
  · exact (checkRunningDiskReplacement_too_many_iff
      [⟨"h1", "/dev/sdb", "A", "cs2", DISK_REPLACEMENT_STATUS_RUNNING, "10"⟩]
      ⟨"cs1", "/dev/sdc", false, false⟩).1.mpr
      ⟨rfl, ⟨"h1", "/dev/sdb", "A", "cs2", DISK_REPLACEMENT_STATUS_RUNNING, "10"⟩,
        by decide, by decide, by decide⟩
  · exact (checkRunningDiskReplacement_too_many_iff
      [⟨"h1", "/dev/sdb", "A", "cs1", DISK_REPLACEMENT_STATUS_RUNNING, "10"⟩]
      ⟨"cs1", "/dev/sdc", false, false⟩).2 (by decide)

/-! ## Stop task construction (internal/task/task/bs/replace_disk_stop.go) -/

/-- storage.GetDiskReplacement with the by-service filter. -/
def GetDiskReplacementByService (chunkserverId : String) (tickets : List DiskReplacement) :
    List DiskReplacement :=
  tickets.filter (fun t => t.ChunkServerID == chunkserverId)

/-- NewStopDiskReplacementTask: looks up the replacement ticket of the named
chunkserver; with no ticket it returns the no-such-replacement error, otherwise
the device of the first ticket becomes the task's disk device path. -/
def NewStopDiskReplacementTask (chunkserverId : String) (tickets : List DiskReplacement) :
    Except Errno String :=
  match GetDiskReplacementByService chunkserverId tickets with
  | [] => Except.error Errno.ERR_REPLACE_DISK_NO_SUCH_REPLACEMENT
  | dr :: _ => Except.ok dr.Device

/-- C8 counterexample: stop for a chunkserver with no existing replacement
ticket (the state after a completed stop) is not a no-op success: the task
constructor returns the no-such-replacement error. -/
theorem NewStopDiskReplacementTask_empty_is_error :
    NewStopDiskReplacementTask "cs1" [] =
      Except.error Errno.ERR_REPLACE_DISK_NO_SUCH_REPLACEMENT ∧
    ∀ dev : String, NewStopDiskReplacementTask "cs1" [] ≠ Except.ok dev := by
  constructor
  · rfl
  · intro dev h
    simp [NewStopDiskReplacementTask, GetDiskReplacementByService] at h

/-- C8 amended: whenever no ticket of the named chunkserver exists, the stop
task construction fails with the no-such-replacement error instead of being a
no-op. -/
theorem NewStopDiskReplacementTask_no_ticket (chunkserverId : String)
    (tickets : List DiskReplacement)
    (h : ∀ t ∈ tickets, t.ChunkServerID ≠ chunkserverId) :
    NewStopDiskReplacementTask chunkserverId tickets =
      Except.error Errno.ERR_REPLACE_DISK_NO_SUCH_REPLACEMENT := by
  unfold NewStopDiskReplacementTask GetDiskReplacementByService
  have : tickets.filter (fun t => t.ChunkServerID == chunkserverId) = [] := by
    rw [List.filter_eq_nil_iff]
    intro t htm
    simpa using h t htm
  rw [this]

/-- Witness for C8's amended statement: a table holding only a cs2 ticket makes
stop for cs1 fail with the no-such-replacement error. -/
theorem NewStopDiskReplacementTask_no_ticket_witness :
    NewStopDiskReplacementTask "cs1"
      [⟨"h1", "/dev/sdb", "A", "cs2", DISK_REPLACEMENT_STATUS_RUNNING, "10"⟩] =
      Except.error Errno.ERR_REPLACE_DISK_NO_SUCH_REPLACEMENT :=
  NewStopDiskReplacementTask_no_ticket "cs1"
    [⟨"h1", "/dev/sdb", "A", "cs2", DISK_REPLACEMENT_STATUS_RUNNING, "10"⟩]
    (by decide)

/-! ## Disk entry construction (DiskConfig.Build, revision part_001 and
internal/configure/disks/disks.go) -/

/-- A disk entry as consumed by Build: the effective device, mount point and
format-percentage after the global-defaults merge. -/
structure DiskConfigEntry where
  Device : String
  MountPoint : String
  FormatPercent : Int
deriving DecidableEq, Repr

/-- Modelled from the spec: itemset.Build for the format_percent key (the item
registry dc_item.go is absent from src); spec section 4.1 requires the
format-percentage to lie in the half-open interval from 0 exclusive to 100
inclusive, the upper bound being checked in Build itself, so the item build
rejects a non-positive value. -/
def itemsetBuildFormatPercent (v : Int) : Except Errno Int :=
  if v ≤ 0 then Except.error Errno.ERR_CONFIGURE_VALUE_REQUIRES_POSITIVE_INTEGER
  else Except.ok v

/-- DiskConfig.Build: the per-key itemset build runs first over the entry's
fields (validating format_percent), then the presence checks for device and
mount point, then the upper bound on the format-percentage. -/
def DiskConfigBuild (dc : DiskConfigEntry) : Except Errno Unit :=
  match itemsetBuildFormatPercent dc.FormatPercent with
  | Except.error e => Except.error e
  | Except.ok _ =>
    if dc.Device = "" then Except.error Errno.ERR_DEVICE_FIELD_MISSING
    else if dc.MountPoint = "" then Except.error Errno.ERR_MOUNT_POINT_FIELD_MISSING
    else if dc.FormatPercent > 100 then Except.error Errno.ERR_DISK_FORMAT_PERCENT_EXCEED_100
    else Except.ok ()

/-- C7: with device and mount point present, Build succeeds exactly when the
effective format-percentage lies in the interval from 0 exclusive to 100
inclusive; a value above 100 fails with the format-percent-exceed error and a
non-positive value fails with the positive-integer requirement of the item
build. -/
theorem DiskConfigBuild_format_percent_bound (dc : DiskConfigEntry)
    (hdev : dc.Device ≠ "") (hmnt : dc.MountPoint ≠ "") :
    (DiskConfigBuild dc = Except.ok () ↔
      0 < dc.FormatPercent ∧ dc.FormatPercent ≤ 100) ∧
    (dc.FormatPercent > 100 →
      DiskConfigBuild dc = Except.error Errno.ERR_DISK_FORMAT_PERCENT_EXCEED_100) ∧
    (dc.FormatPercent ≤ 0 →
      DiskConfigBuild dc = Except.error Errno.ERR_CONFIGURE_VALUE_REQUIRES_POSITIVE_INTEGER) := by
  unfold DiskConfigBuild itemsetBuildFormatPercent
  by_cases h0 : dc.FormatPercent ≤ 0
  · simp [h0, hdev, hmnt] <;> omega
  · by_cases h100 : dc.FormatPercent > 100
    · simp [h0, h100, hdev, hmnt] <;> omega
    · simp [h0, h100, hdev, hmnt] <;> omega

/-- Witness for C7: percent 101 and percent 0 are rejected, percent 100 and
percent 1 are accepted, on a concrete entry. -/
theorem DiskConfigBuild_format_percent_bound_witness :
    DiskConfigBuild ⟨"/dev/sd1", "/m1", 101⟩ =
      Except.error Errno.ERR_DISK_FORMAT_PERCENT_EXCEED_100 ∧
    DiskConfigBuild ⟨"/dev/sd1", "/m1", 0⟩ =
      Except.error Errno.ERR_CONFIGURE_VALUE_REQUIRES_POSITIVE_INTEGER ∧
    DiskConfigBuild ⟨"/dev/sd1", "/m1", 100⟩ = Except.ok () ∧
    DiskConfigBuild ⟨"/dev/sd1", "/m1", 1⟩ = Except.ok () := by
  refine ⟨?_, ?_, ?_, ?_⟩
  · exact (DiskConfigBuild_format_percent_bound ⟨"/dev/sd1", "/m1", 101⟩
      (by decide) (by decide)).2.1 (by decide)
  · exact (DiskConfigBuild_format_percent_bound ⟨"/dev/sd1", "/m1", 0⟩
      (by decide) (by decide)).2.2 (by decide)
  · exact (DiskConfigBuild_format_percent_bound ⟨"/dev/sd1", "/m1", 100⟩
      (by decide) (by decide)).1.mpr (by decide)
  · exact (DiskConfigBuild_format_percent_bound ⟨"/dev/sd1", "/m1", 1⟩
      (by decide) (by decide)).1.mpr (by decide)

/-! ## Disk-record synchronization on commit (updateDisk of
internal/configure/disks/disks.go, and the part_003 revision) -/

/-- A parsed disk entry as consumed by updateDisk. -/
structure DiskConfigR where
  Device : String
  MountPoint : String
  ContainerImage : String
  FormatPercent : Int
  HostsOnly : List String
  HostsExclude : List String
deriving DecidableEq, Repr

/-- storage.SetDisk: inserts a disk record; modelled from the spec, a freshly
committed record is unowned, carrying the sentinel chunkserver id (the storage
layer is absent from src). -/
def SetDisk (host device mount image : String) (percent : Int) (records : List Disk) :
    List Disk :=
  records ++ [⟨host, device, mount, image, DISK_DEFAULT_NULL_CHUNKSERVER_ID, "", "", "", percent⟩]

/-- storage.DeleteDisk: removes the records keyed by (host, device). -/
def DeleteDisk (host device : String) (records : List Disk) : List Disk :=
  records.filter (fun r => !(r.Host == host && r.Device == device))

/-- The disksToSync key, strings.Join of host and device with a colon. -/
def syncKey (host device : String) : String := host ++ ":" ++ device

/-- Map-insert semantics of the disksToSync set: distinct keys only. -/
def insertKey (k : String) (ks : List String) : List String :=
  if ks.contains k then ks else ks ++ [k]

/-- One (host, disk-entry) iteration of updateDisk's record-writing loop:
skipped when the host is outside a nonempty hosts-only list or inside the
hosts-exclude list; otherwise the sync key is recorded and a record is written
unless one already exists. -/
def updateDiskStep (host : String) (st : List Disk × List String) (dc : DiskConfigR) :
    List Disk × List String :=
  if !(dc.HostsOnly.contains host) && decide (dc.HostsOnly.length > 0) then st
  else if dc.HostsExclude.contains host then st
  else
    let keys := insertKey (syncKey host dc.Device) st.2
    if (GetDiskByDevice host dc.Device st.1).length > 0 then (st.1, keys)
    else (SetDisk host dc.Device dc.MountPoint dc.ContainerImage dc.FormatPercent st.1, keys)

/-- The record-writing double loop of updateDisk over hosts and entries. -/
def updateDiskInner (hcs : List String) (dcs : List DiskConfigR) (records0 : List Disk) :
    List Disk × List String :=
  hcs.foldl (fun st host => dcs.foldl (updateDiskStep host) st) (records0, [])

/-- The deletion loop of updateDisk: a record whose chunkserver id differs from
the sentinel aborts with the nonempty-chunkserver-id error before its deletion;
a sentinel record is deleted. -/
def deleteAll : List Disk → List Disk → Except Errno (List Disk)
  | [], recs => Except.ok recs
  | dr :: rest, recs =>
    if dr.ChunkServerID != DISK_DEFAULT_NULL_CHUNKSERVER_ID then
      Except.error Errno.ERR_DISK_CHUNKSER_ID_NONEMPTY
    else deleteAll rest (DeleteDisk dr.Host dr.Device recs)

/-- updateDisk of internal/configure/disks/disks.go: write the records of the
new document, then, when the cached record count differs from the sync-key
count, delete the cached records whose key is no longer synchronized. -/
def updateDisk (hcs : List String) (dcs : List DiskConfigR) (records0 : List Disk) :
    Except Errno (List Disk) :=
  let st := updateDiskInner hcs dcs records0
  if records0.length ≠ st.2.length then
    deleteAll (records0.filter (fun dr => !(st.2.contains (syncKey dr.Host dr.Device)))) st.1
  else Except.ok st.1

/-- (host, device) is a key of the disk table. -/
def diskKeyUnique (records : List Disk) : Prop :=
  ∀ a ∈ records, ∀ b ∈ records, a.Host = b.Host → a.Device = b.Device → a = b

theorem updateDiskStep_mono (host : String) (dc : DiskConfigR)
    (st : List Disk × List String) (r : Disk) (hr : r ∈ st.1) :
    r ∈ (updateDiskStep host st dc).1 := by
  unfold updateDiskStep
  split
  · exact hr
  · split
    · exact hr
    · split
      · exact hr
      · exact List.mem_append_left _ hr

theorem foldl_updateDiskStep_mono (host : String) (dcs : List DiskConfigR) :
    ∀ (st : List Disk × List String) (r : Disk), r ∈ st.1 →
      r ∈ (dcs.foldl (updateDiskStep host) st).1 := by
  induction dcs with
  | nil => intro st r hr; exact hr
  | cons dc rest ih =>
    intro st r hr
    rw [List.foldl_cons]
    exact ih _ r (updateDiskStep_mono host dc st r hr)

theorem updateDiskInner_mono (hcs : List String) (dcs : List DiskConfigR)
    (records0 : List Disk) (r : Disk) (hr : r ∈ records0) :
    r ∈ (updateDiskInner hcs dcs records0).1 := by
  unfold updateDiskInner
  have main : ∀ (hs : List String) (st : List Disk × List String), r ∈ st.1 →
      r ∈ (hs.foldl (fun st host => dcs.foldl (updateDiskStep host) st) st).1 := by
    intro hs
    induction hs with
    | nil => intro st h; exact h
    | cons host rest ih =>
      intro st h
      rw [List.foldl_cons]
      exact ih _ (foldl_updateDiskStep_mono host dcs st r h)
  exact main hcs (records0, []) hr

theorem deleteAll_preserves (r : Disk)
    (hid : r.ChunkServerID ≠ DISK_DEFAULT_NULL_CHUNKSERVER_ID) :
    ∀ (lst recs final : List Disk),
      (∀ dr ∈ lst, dr.Host = r.Host → dr.Device = r.Device → dr = r) →
      deleteAll lst recs = Except.ok final → r ∈ recs → r ∈ final := by
  intro lst
  induction lst with
  | nil =>
    intro recs final _ hok hr
    unfold deleteAll at hok
    cases hok
    exact hr
  | cons dr rest ih =>
    intro recs final hkey hok hr
    unfold deleteAll at hok
    by_cases hdr : dr.ChunkServerID = DISK_DEFAULT_NULL_CHUNKSERVER_ID
    · have hbne : (dr.ChunkServerID != DISK_DEFAULT_NULL_CHUNKSERVER_ID) = false := by
        simp [hdr]
      rw [hbne] at hok
      simp only [Bool.false_eq_true, if_false] at hok
      have hrne : dr ≠ r := by
        intro he
        rw [he] at hdr
        exact hid hdr
      have hr2 : r ∈ DeleteDisk dr.Host dr.Device recs := by
        unfold DeleteDisk
        rw [List.mem_filter]
        refine ⟨hr, ?_⟩
        simp only [Bool.not_eq_eq_eq_not, Bool.not_true, Bool.and_eq_false_imp]
        by_contra hcon
        simp only [Bool.and_eq_true, beq_iff_eq, not_and, not_forall] at hcon
        rcases Decidable.em (r.Host = dr.Host) with hh | hh
        · rcases Decidable.em (r.Device = dr.Device) with hd | hd
          · exact hrne (hkey dr (List.mem_cons_self dr rest) hh.symm hd.symm)
          · simp [hh, hd] at hcon
        · simp [hh] at hcon
      exact ih _ final (fun d hd => hkey d (List.mem_cons_of_mem dr hd)) hok hr2
    · have hbne : (dr.ChunkServerID != DISK_DEFAULT_NULL_CHUNKSERVER_ID) = true := by
        simp [hdr]
      rw [hbne] at hok
      simp at hok

/-- C9 amended (the disks.go revision): the commit-time synchronization never
removes a disk record carrying a non-sentinel chunkserver id: whenever
updateDisk completes without error, every owned record of the cached table is
still present; records whose id differs from the sentinel either survive or
make the whole operation abort with the nonempty-chunkserver-id error before
their deletion. -/
theorem updateDisk_never_deletes_owned (hcs : List String) (dcs : List DiskConfigR)
    (records0 : List Disk) (r : Disk) (final : List Disk)
    (hu : diskKeyUnique records0) (hr : r ∈ records0)
    (hid : r.ChunkServerID ≠ DISK_DEFAULT_NULL_CHUNKSERVER_ID)
    (hok : updateDisk hcs dcs records0 = Except.ok final) :
    r ∈ final := by
  unfold updateDisk at hok
  have hr1 : r ∈ (updateDiskInner hcs dcs records0).1 :=
    updateDiskInner_mono hcs dcs records0 r hr
  by_cases hlen : records0.length ≠ (updateDiskInner hcs dcs records0).2.length
  · rw [if_pos hlen] at hok
    refine deleteAll_preserves r hid _ _ final ?_ hok hr1
    intro dr hdm hh hd
    exact hu dr (List.mem_of_mem_filter hdm) r hr hh hd
  · rw [if_neg hlen] at hok
    cases hok
    exact hr1

/-- Witness for C9's amended statement: committing a document that drops the
unowned (h1, sd2) record keeps the owned (h1, sd1) record: the unowned record
is deleted, the owned one survives. -/
theorem updateDisk_never_deletes_owned_witness :
    (⟨"h1", "/dev/sd1", "/m1", "img", "x", "", "", "", 90⟩ : Disk) ∈
      [(⟨"h1", "/dev/sd1", "/m1", "img", "x", "", "", "", 90⟩ : Disk)] :=
  updateDisk_never_deletes_owned ["h1"]
    [⟨"/dev/sd1", "/m1", "img", 90, [], []⟩]
    [⟨"h1", "/dev/sd1", "/m1", "img", "x", "", "", "", 90⟩,
     ⟨"h1", "/dev/sd2", "/m2", "img", "-", "", "", "", 90⟩]
    ⟨"h1", "/dev/sd1", "/m1", "img", "x", "", "", "", 90⟩
    [⟨"h1", "/dev/sd1", "/m1", "img", "x", "", "", "", 90⟩]
    (by unfold diskKeyUnique; decide) (by decide) (by decide) (by decide)

/-- One (host, disk-entry) iteration of the part_003 revision of updateDisk:
toRecord requires every hosts-only element to equal the host and the host to be
outside hosts-exclude; when set, a record is written unconditionally and the
singleton map from host to device is appended to diskList. -/
def updateDiskPart003Step (host : String) (st : List Disk × List (String × String))
    (dc : DiskConfigR) : List Disk × List (String × String) :=
  let toRecord := dc.HostsOnly.all (fun h => host == h) && !(dc.HostsExclude.contains host)
  if toRecord then
    (SetDisk host dc.Device dc.MountPoint dc.ContainerImage dc.FormatPercent st.1,
      st.2 ++ [(host, dc.Device)])
  else st

/-- updateDisk of the part_003 revision: after the record-writing loop, when
the cached record count differs from the diskList length, each cached record is
tested against the last singleton map only (hostExists looks its host up as a
key, devExists looks its device up as a key, both reassigned every iteration in
the source); a record whose chunkserver id is longer than one character is
skipped, any other record is deleted by host when the host key is absent or by
(host, device) when the device key is absent. -/
def updateDiskPart003 (hcs : List String) (dcs : List DiskConfigR) (records0 : List Disk) :
    List Disk :=
  let st := hcs.foldl (fun st host => dcs.foldl (updateDiskPart003Step host) st) (records0, [])
  if records0.length ≠ st.2.length then
    records0.foldl (fun recs dr =>
      let hostExists :=
        match st.2.getLast? with
        | some hd => hd.1 == dr.Host
        | none => false
      let devExists :=
        match st.2.getLast? with
        | some hd => hd.1 == dr.Device
        | none => false
      if dr.ChunkServerID.length > 1 then recs
      else if !hostExists then DeleteDisk dr.Host "" recs
      else if !devExists then DeleteDisk dr.Host dr.Device recs
      else recs) st.1
  else st.1

/-- C9 counterexample: under the part_003 revision, committing a document that
covers only (h1, sd1) deletes the cached record (h1, sd2) although its owning
chunkserver id x is neither the sentinel nor empty: the guard skips only
records whose id is longer than one character. -/
theorem updateDiskPart003_deletes_owned :
    ("x" ≠ DISK_DEFAULT_NULL_CHUNKSERVER_ID ∧ "x" ≠ "") ∧
    (⟨"h1", "/dev/sd2", "/m2", "img", "x", "", "", "", 90⟩ : Disk) ∈
      [⟨"h1", "/dev/sd1", "/m1", "img", "-", "", "", "", 90⟩,
       (⟨"h1", "/dev/sd2", "/m2", "img", "x", "", "", "", 90⟩ : Disk)] ∧
    (⟨"h1", "/dev/sd2", "/m2", "img", "x", "", "", "", 90⟩ : Disk) ∉
      updateDiskPart003 ["h1"]
        [⟨"/dev/sd1", "/m1", "img", 90, ["h1"], []⟩]
        [⟨"h1", "/dev/sd1", "/m1", "img", "-", "", "", "", 90⟩,
         ⟨"h1", "/dev/sd2", "/m2", "img", "x", "", "", "", 90⟩] := by
  refine ⟨by decide, by decide, by decide⟩
